import Mathlib

/-!
Verification of the natc app-connector core (DNS interception and synthesis,
IP address pool, destination filter) and of the linuxfw iptables magicsock
port rules, against the repository's specification.

The natc connector implementation (cmd/natc/natc.go and cmd/natc/ippool) is
not present under src/; only its test, cmd/natc/natc_test.go, is.  Those
components are therefore modelled from the spec (section 4 of spec.md), with
the in-tree test pinning concrete behavior (ULA constants, the response to a
zero-question datagram).  The iptables magicsock port rules are translated
directly from src/unnamed/part_000 (package linuxfw).

Machine integers are modelled as Nat with explicit reductions modulo 2^w
where the Go code uses fixed-width integers (uint16 site IDs and ports).
IPv4 addresses are 32-bit values and IPv6 addresses 128-bit values, both
carried as Nat.
-/

/-- An IP address: either IPv4 (a 32-bit value) or IPv6 (a 128-bit value),
mirroring netip.Addr which is one of the two families. -/
inductive Addr where
  | v4 (n : Nat)
  | v6 (n : Nat)

deriving instance DecidableEq for Addr

/-- An IPv6 network: a 128-bit base address together with the number of
leading bits that are significant, mirroring netip.Prefix restricted to
IPv6 as produced by ula. -/
structure V6Net where
  addr : Nat
  bits : Nat

deriving instance DecidableEq for V6Net

/-- Modelled from the spec: the fixed 64-bit global ULA base of section 3
("fixed 64-bit global ULA base + SiteID occupying the next 16 bits").  The
concrete constant fd7a:115c:a1e0:a99c is pinned by TestULA in
src/cmd/natc/natc_test.go, the ula implementation itself being absent from
src/. -/
def ulaBase : Nat := 0xfd7a115ca1e0a99c

/-- Modelled from the spec: ULA(siteID) of section 4.1 — a pure, total,
deterministic function producing a /80 prefix that encodes the 16-bit
siteID in the 16 variable bits that follow the 64-bit ULA base.  The Go
function takes a uint16, modelled by reducing the argument modulo 2^16. -/
def ula (siteID : Nat) : V6Net :=
  { addr := ulaBase * 2 ^ 64 + (siteID % 2 ^ 16) * 2 ^ 48, bits := 80 }

/-- Lower-cases one ASCII character, as strings.ToLower does for the ASCII
subset relevant to host names. -/
def lowerChar (c : Char) : Char :=
  if 65 ≤ c.toNat ∧ c.toNat ≤ 90 then Char.ofNat (c.toNat + 32) else c

/-- Reports whether the string's last character is a dot. -/
def hasTrailingDot (s : String) : Bool :=
  match s.data.reverse with
  | [] => false
  | c :: _ => c == '.'

/-- Modelled from the spec: key normalization of sections 3 and 4.2 — the
FQDN is lower-cased and a trailing dot is enforced (the ippool
implementation is absent from src/). -/
def normalizeDomain (d : String) : String :=
  let l := String.mk (d.data.map lowerChar)
  if hasTrailingDot l then l else l ++ "."

/-- Modelled from the spec: an AllocationRecord value (section 3) — an
optional IPv4 address drawn from the finite pool, and the 48-bit
discriminator whose combination with the ULA prefix forms the record's
IPv6 address.  The spec treats the IPv6 discriminator space as effectively
unbounded, so the discriminator is carried as a plain Nat. -/
structure DomainRecord where
  v4 : Option Nat
  disc : Nat

deriving instance DecidableEq for DomainRecord

/-- Modelled from the spec: the IPPool state (section 4.2) — the instance's
ULA /80 prefix (field V6ULA of the Go struct), the remaining free IPv4
addresses of the AddressPool (field IPSet), the allocation records keyed by
(peer identity, normalized FQDN), and the per-peer monotonically increasing
discriminator counters. -/
structure IPPoolState where
  v6ULA : V6Net
  ipset : List Nat
  recs : List ((Nat × String) × DomainRecord)
  counters : List (Nat × Nat)

deriving instance DecidableEq for IPPoolState

/-- Looks up the allocation record stored for a key, first match wins. -/
def lookupRec : List ((Nat × String) × DomainRecord) → Nat × String → Option DomainRecord
  | [], _ => none
  | (k, r) :: rest, key => if k = key then some r else lookupRec rest key

/-- The per-peer discriminator counter, zero for a peer never seen. -/
def getCounter : List (Nat × Nat) → Nat → Nat
  | [], _ => 0
  | (p, c) :: rest, q => if p = q then c else getCounter rest q

/-- Replaces (or creates) the per-peer discriminator counter. -/
def setCounter : List (Nat × Nat) → Nat → Nat → List (Nat × Nat)
  | [], p, c => [(p, c)]
  | (q, c') :: rest, p, c => if q = p then (p, c) :: rest else (q, c') :: setCounter rest p c

/-- The IPv6 address of a record: the ULA prefix combined with the record's
discriminator (section 4.2). -/
def v6For (st : IPPoolState) (r : DomainRecord) : Nat :=
  st.v6ULA.addr + r.disc

/-- The address set a record yields: IPv4 first when present, then the
IPv6 address (section 4.2: "IPv4 first then IPv6 when both present"). -/
def recAddrs (st : IPPoolState) (r : DomainRecord) : List Addr :=
  (match r.v4 with
   | some a => [Addr.v4 a]
   | none => []) ++ [Addr.v6 (v6For st r)]

/-- Modelled from the spec: IPForDomain (section 4.2), the ippool
implementation being absent from src/.  The domain is normalized; an
existing record's addresses are returned unchanged; otherwise a guarded
allocation draws the next unused IPv4 address from the pool and a fresh
per-peer discriminator for IPv6, stores the record and returns its
addresses.  When the IPv4 pool is exhausted the call fails (reclamation of
idle records under pool pressure is outside this model; the claims below
only speak about calls made while pool capacity remains). -/
def ipForDomain (st : IPPoolState) (peer : Nat) (domain : String) :
    Option (List Addr × IPPoolState) :=
  let key := (peer, normalizeDomain domain)
  match lookupRec st.recs key with
  | some r => some (recAddrs st r, st)
  | none =>
    match st.ipset with
    | [] => none
    | a :: rest =>
      let r : DomainRecord := { v4 := some a, disc := getCounter st.counters peer }
      let st' : IPPoolState :=
        { st with
          ipset := rest,
          recs := (key, r) :: st.recs,
          counters := setCounter st.counters peer (getCounter st.counters peer + 1) }
      some (recAddrs st' r, st')

/-- DNS record type A (host IPv4 address), wire value 1. -/
def typeA : Nat := 1

/-- DNS record type AAAA (host IPv6 address), wire value 28. -/
def typeAAAA : Nat := 28

/-- DNS response code NOERROR. -/
def rcodeSuccess : Nat := 0

/-- DNS response code NameError (NXDOMAIN). -/
def rcodeNameError : Nat := 3

/-- One entry of a DNS question section: the queried name and record type. -/
structure DNSQuestion where
  name : String
  qtype : Nat

deriving instance DecidableEq for DNSQuestion

/-- One entry of a DNS answer section: the answered name, record type and
address carried by the resource body. -/
structure DNSAnswer where
  name : String
  rtype : Nat
  addr : Addr

deriving instance DecidableEq for DNSAnswer

/-- A parsed DNS message: transaction ID, response flag, response code,
question section and answer section — the parts of dnsmessage.Message the
connector reads and writes. -/
structure DNSMessage where
  id : Nat
  response : Bool
  rcode : Nat
  questions : List DNSQuestion
  answers : List DNSAnswer

deriving instance DecidableEq for DNSMessage

/-- The outcome of one resolver LookupNetIP call, already classified the
way the connector consumes it (section 6 of the spec): success with
addresses, or an error classified as not-found, timeout, or
temporary; `other` stands for any error matching none of the three
predicates, which the spec says is treated as transient. -/
inductive ResolverResult where
  | ok (addrs : List Addr)
  | notFound
  | timeout
  | temporary
  | other

deriving instance DecidableEq for ResolverResult

/-- A registered ignore entry: an IPv4 or IPv6 network (family flag, base
address, significant leading bits), as inserted into the connector's
bart table of destinations that must bypass interception. -/
structure IPNet where
  isV6 : Bool
  addr : Nat
  bits : Nat

deriving instance DecidableEq for IPNet

/-- Membership of an address in a registered network: the families agree
and the address shares the network's significant leading bits. -/
def netContains (p : IPNet) (a : Addr) : Bool :=
  match a with
  | .v4 n => !p.isV6 && (n / 2 ^ (32 - p.bits) == p.addr / 2 ^ (32 - p.bits))
  | .v6 n => p.isV6 && (n / 2 ^ (128 - p.bits) == p.addr / 2 ^ (128 - p.bits))

/-- Modelled from the spec: IsIgnored of section 4.4 (the connector method
ignoreDestination, absent from src/) — true exactly when some address of
the given set is covered by some registered ignore entry, false for the
empty set. -/
def ignoreDestination (tbl : List IPNet) (addrs : List Addr) : Bool :=
  addrs.any fun a => tbl.any fun p => netContains p a

/-- Modelled from the spec: the Connector's collaborators and state
(sections 2 and 6) — the injected resolver, the WhoIs identity lookup
keyed by the datagram's source transport address (modelled as a Nat), the
registered ignore networks, and the IPPool allocation state. -/
structure Connector where
  resolver : String → ResolverResult
  whois : Nat → Option Nat
  ignoreDsts : List IPNet
  ipPool : IPPoolState

/-- The first IPv4 payload of an address list, if any — how the connector
selects the A answer from IPForDomain's result. -/
def findV4 : List Addr → Option Nat
  | [] => none
  | Addr.v4 n :: _ => some n
  | Addr.v6 _ :: rest => findV4 rest

/-- The first IPv6 payload of an address list, if any — how the connector
selects the AAAA answer from IPForDomain's result. -/
def findV6 : List Addr → Option Nat
  | [] => none
  | Addr.v6 n :: _ => some n
  | Addr.v4 _ :: rest => findV6 rest

/-- Modelled from the spec: the response-synthesis step of handleDNS for an
already attributed peer (section 4.3, generateDNSResponse in the absent
cmd/natc/natc.go), returning the response to send (none meaning drop) and
the possibly updated pool state.  Only the first question is answered.  An
A or AAAA question consults the resolver: a not-found error yields an
NXDOMAIN reply with no answers; a timeout, temporary or other error is
transient and yields no reply; on success IPForDomain allocates-or-fetches
the synthetic addresses and the matching family's address is returned as
the single answer (NOERROR with zero answers when the record lacks that
family).  A pool-exhausted allocation failure yields no reply (the spec
forbids fabricating a response).  Every other record type yields NOERROR
with zero answers.  A message with an empty question section yields an
answerless reply echoing the header: the spec's section 4.3 step 2 says
such a datagram is dropped, but TestDNSResponse (empty_request,
src/cmd/natc/natc_test.go) requires exactly one reply for it, and the
in-tree test is followed here.  The spec places the DestinationFilter on
the out-of-scope packet-forwarding path (section 2), so it is not consulted
during synthesis. -/
def generateDNSResponse (c : Connector) (msg : DNSMessage) (peer : Nat) :
    Option DNSMessage × IPPoolState :=
  match msg.questions with
  | [] =>
    (some { id := msg.id, response := true, rcode := rcodeSuccess,
            questions := msg.questions, answers := [] }, c.ipPool)
  | q :: _ =>
    if q.qtype = typeA ∨ q.qtype = typeAAAA then
      match c.resolver q.name with
      | .ok _ =>
        match ipForDomain c.ipPool peer q.name with
        | none => (none, c.ipPool)
        | some (as, st') =>
          let answers :=
            if q.qtype = typeA then
              match findV4 as with
              | some a => [{ name := q.name, rtype := typeA, addr := Addr.v4 a : DNSAnswer }]
              | none => []
            else
              match findV6 as with
              | some a => [{ name := q.name, rtype := typeAAAA, addr := Addr.v6 a : DNSAnswer }]
              | none => []
          (some { id := msg.id, response := true, rcode := rcodeSuccess,
                  questions := msg.questions, answers := answers }, st')
      | .notFound =>
        (some { id := msg.id, response := true, rcode := rcodeNameError,
                questions := msg.questions, answers := [] }, c.ipPool)
      | .timeout => (none, c.ipPool)
      | .temporary => (none, c.ipPool)
      | .other => (none, c.ipPool)
    else
      (some { id := msg.id, response := true, rcode := rcodeSuccess,
              questions := msg.questions, answers := [] }, c.ipPool)

/-- Modelled from the spec: handleDNS (section 4.3, absent from src/) for
one inbound datagram.  The datagram either fails to parse (query = none)
or parses to a message; the peer identity is resolved from the source
transport address.  A parse failure or an unattributable peer drops the
datagram with no reply; otherwise the response, if any, is synthesized by
generateDNSResponse.  The returned pair is the single datagram written
(none meaning nothing is sent) and the connector's pool state
afterwards. -/
def handleDNS (c : Connector) (query : Option DNSMessage) (src : Nat) :
    Option DNSMessage × IPPoolState :=
  match c.whois src with
  | none => (none, c.ipPool)
  | some peer =>
    match query with
    | none => (none, c.ipPool)
    | some msg => generateDNSResponse c msg peer

/-- Translated from src/unnamed/part_000 (buildMagicsockPortRule): the
iptables argument list describing the rule that accepts traffic on one UDP
port; the same list is passed to Append and Delete.  The Go port is a
uint16 formatted in decimal, modelled by reducing modulo 2^16. -/
def buildMagicsockPortRule (port : Nat) : List String :=
  ["-p", "udp", "--dport", Nat.repr (port % 2 ^ 16), "-j", "ACCEPT"]

/-- The filter/ts-input chains of the runner's IPv4 and IPv6 iptables, the
only chains AddMagicsockPortRule and DelMagicsockPortRule touch; a rule is
the argument list it was appended with. -/
structure IptablesState where
  tsInput4 : List (List String)
  tsInput6 : List (List String)

deriving instance DecidableEq for IptablesState

/-- iptables Delete: removes the first rule of the chain whose argument
list matches, failing when no rule matches. -/
def deleteRule (rules : List (List String)) (args : List String) :
    Option (List (List String)) :=
  match rules with
  | [] => none
  | r :: rest =>
    if r = args then some rest
    else (deleteRule rest args).map (fun l => r :: l)

/-- Translated from src/unnamed/part_000 (AddMagicsockPortRule): selects
the iptables family for network "udp4" or "udp6" (any other network is an
error), and appends buildMagicsockPortRule port to filter/ts-input. -/
def AddMagicsockPortRule (st : IptablesState) (port : Nat) (network : String) :
    Option IptablesState :=
  if network = "udp4" then
    some { st with tsInput4 := st.tsInput4 ++ [buildMagicsockPortRule port] }
  else if network = "udp6" then
    some { st with tsInput6 := st.tsInput6 ++ [buildMagicsockPortRule port] }
  else none

/-- Translated from src/unnamed/part_000 (DelMagicsockPortRule): selects
the iptables family for network "udp4" or "udp6" (any other network is an
error), and deletes buildMagicsockPortRule port from filter/ts-input. -/
def DelMagicsockPortRule (st : IptablesState) (port : Nat) (network : String) :
    Option IptablesState :=
  if network = "udp4" then
    (deleteRule st.tsInput4 (buildMagicsockPortRule port)).map
      (fun l => { st with tsInput4 := l })
  else if network = "udp6" then
    (deleteRule st.tsInput6 (buildMagicsockPortRule port)).map
      (fun l => { st with tsInput6 := l })
  else none

/-- Well-formedness of an IPPool state, the invariant section 3 states for
AllocationRecords: the free pool holds no duplicates and no address already
allocated to a record; records with distinct keys never share an IPv4
address; every record's discriminator is below its peer's counter; and
records of one peer with distinct keys have distinct discriminators. -/
structure PoolWF (st : IPPoolState) : Prop where
  nodup_free : st.ipset.Nodup
  v4_not_free : ∀ k r a, (k, r) ∈ st.recs → r.v4 = some a → a ∉ st.ipset
  v4_distinct : ∀ k₁ r₁ k₂ r₂, (k₁, r₁) ∈ st.recs → (k₂, r₂) ∈ st.recs →
    k₁ ≠ k₂ → ∀ a, r₁.v4 = some a → r₂.v4 ≠ some a
  disc_lt : ∀ k r, (k, r) ∈ st.recs → r.disc < getCounter st.counters k.1
  disc_distinct : ∀ k₁ r₁ k₂ r₂, (k₁, r₁) ∈ st.recs → (k₂, r₂) ∈ st.recs →
    k₁ ≠ k₂ → k₁.1 = k₂.1 → r₁.disc ≠ r₂.disc

/-- A fresh pool for site 1 with three free IPv4 addresses, mirroring the
fixture TestDNSResponse builds from calculateAddresses and ula 1. -/
def samplePool : IPPoolState :=
  { v6ULA := ula 1, ipset := [100, 101, 102], recs := [], counters := [] }

/-- A resolver fixture: "a." resolves to one IPv4 and one IPv6 address,
"t." fails with a temporary error, "z." with a timeout, "o." with an
unclassified error, and every other name is not found. -/
def sampleResolver : String → ResolverResult := fun s =>
  if s = "a." then ResolverResult.ok [Addr.v4 8, Addr.v6 9]
  else if s = "t." then ResolverResult.temporary
  else if s = "z." then ResolverResult.timeout
  else if s = "o." then ResolverResult.other
  else ResolverResult.notFound

/-- A connector fixture: source address 100 is attributed to peer 123 and
every other source is unknown, mirroring the TestDNSResponse whois map. -/
def sampleC : Connector :=
  { resolver := sampleResolver,
    whois := fun n => if n = 100 then some 123 else none,
    ignoreDsts := [],
    ipPool := samplePool }

/-- A parsed query with transaction ID 1234 and an empty question
section. -/
def emptyQueryMsg : DNSMessage :=
  { id := 1234, response := false, rcode := 0, questions := [], answers := [] }

/-- A parsed query with one A question for the resolvable name "a.". -/
def msgA : DNSMessage :=
  { id := 7, response := false, rcode := 0,
    questions := [{ name := "a.", qtype := typeA }], answers := [] }

/-- A parsed query with one A question for the nonexistent name "n.". -/
def msgNX : DNSMessage :=
  { id := 8, response := false, rcode := 0,
    questions := [{ name := "n.", qtype := typeA }], answers := [] }

/-- A parsed query with one A question for "t.", whose lookup fails with a
temporary error. -/
def msgTmp : DNSMessage :=
  { id := 9, response := false, rcode := 0,
    questions := [{ name := "t.", qtype := typeA }], answers := [] }

/-- The pool state after allocating "a." for peer 123 from samplePool. -/
def sampleStA : IPPoolState :=
  { v6ULA := ula 1, ipset := [101, 102],
    recs := [((123, "a."), { v4 := some 100, disc := 0 })],
    counters := [(123, 1)] }

/-- The addresses IPForDomain assigns to (peer 123, "a.") in samplePool. -/
def sampleAsA : List Addr :=
  [Addr.v4 100, Addr.v6 0xfd7a115ca1e0a99c0001000000000000]

/-- The pool state after further allocating "b." for peer 123. -/
def sampleStB : IPPoolState :=
  { v6ULA := ula 1, ipset := [102],
    recs := [((123, "b."), { v4 := some 101, disc := 1 }),
             ((123, "a."), { v4 := some 100, disc := 0 })],
    counters := [(123, 2)] }

/-- The addresses IPForDomain assigns to (peer 123, "b.") after "a.". -/
def sampleAsB : List Addr :=
  [Addr.v4 101, Addr.v6 0xfd7a115ca1e0a99c0001000000000001]

/-- An iptables state with one unrelated rule in the IPv4 ts-input
chain. -/
def sampleIpt : IptablesState :=
  { tsInput4 := [["-i", "lo", "-j", "ACCEPT"]], tsInput6 := [] }

/-- sampleIpt after AddMagicsockPortRule for port 7 on "udp4". -/
def sampleIptAdded : IptablesState :=
  { tsInput4 := [["-i", "lo", "-j", "ACCEPT"],
                 ["-p", "udp", "--dport", "7", "-j", "ACCEPT"]],
    tsInput6 := [] }

/-- Claim C5: ula is deterministic (it is a pure function of its argument)
and injective over siteID in [0, 65535]; ula 0 has the 16-bit discriminator
field all-zero, ula 65535 has it all-ones, and ula 12345 encodes 0x3039.
The expected prefixes are the ones TestULA pins:
fd7a:115c:a1e0:a99c:0000::/80, fd7a:115c:a1e0:a99c:ffff::/80 and
fd7a:115c:a1e0:a99c:3039::/80. -/
theorem ula_injective_and_values :
    (∀ s1 s2 : Nat, s1 ≤ 65535 → s2 ≤ 65535 → ula s1 = ula s2 → s1 = s2) ∧
    ula 0 = { addr := 0xfd7a115ca1e0a99c0000000000000000, bits := 80 } ∧
    ula 65535 = { addr := 0xfd7a115ca1e0a99cffff000000000000, bits := 80 } ∧
    ula 12345 = { addr := 0xfd7a115ca1e0a99c3039000000000000, bits := 80 } := by
  refine ⟨?_, by decide, by decide, by decide⟩
  intro s1 s2 h1 h2 h
  simp only [ula, V6Net.mk.injEq] at h
  omega

/-- Witness for claim C5: the injectivity part applied at the concrete
site IDs 1 and 1, together with one of the concrete prefix values. -/
theorem ula_injective_and_values_witness :
    (1 : Nat) = 1 ∧ ula 12345 = { addr := 0xfd7a115ca1e0a99c3039000000000000, bits := 80 } :=
  ⟨ula_injective_and_values.1 1 1 (by decide) (by decide) rfl,
   ula_injective_and_values.2.2.2⟩

/-- A key found by lookupRec is present in the association list. -/
theorem lookupRec_mem {recs : List ((Nat × String) × DomainRecord)}
    {k : Nat × String} {r : DomainRecord}
    (h : lookupRec recs k = some r) : (k, r) ∈ recs := by
  induction recs with
  | nil => exact absurd h (by simp [lookupRec])
  | cons hd tl ih =>
    obtain ⟨k', r'⟩ := hd
    by_cases hk : k' = k
    · subst hk
      have h' : r' = r := by simpa [lookupRec] using h
      subst h'
      exact List.mem_cons_self _ _
    · simp only [lookupRec, if_neg hk] at h
      exact List.mem_cons_of_mem _ (ih h)

/-- Setting a peer's counter makes that peer's counter the value set. -/
theorem getCounter_set_self (cs : List (Nat × Nat)) (p c : Nat) :
    getCounter (setCounter cs p c) p = c := by
  induction cs with
  | nil => simp [setCounter, getCounter]
  | cons hd tl ih =>
    obtain ⟨q, c'⟩ := hd
    by_cases h : q = p
    · simp [setCounter, h, getCounter]
    · simp [setCounter, h, getCounter, ih]

/-- Setting one peer's counter leaves every other peer's counter
unchanged. -/
theorem getCounter_set_other (cs : List (Nat × Nat)) (p c q : Nat) (h : q ≠ p) :
    getCounter (setCounter cs p c) q = getCounter cs q := by
  have h' : p ≠ q := Ne.symm h
  induction cs with
  | nil => simp [setCounter, getCounter, h']
  | cons hd tl ih =>
    obtain ⟨q', c'⟩ := hd
    by_cases hq : q' = p
    · subst hq
      simp [setCounter, getCounter, h']
    · simp [setCounter, hq, getCounter, ih]

/-- Membership in a record's address set: the record's IPv4 address when
present, or the record's IPv6 address. -/
theorem mem_recAddrs {st : IPPoolState} {r : DomainRecord} {a : Addr} :
    a ∈ recAddrs st r ↔
      (∃ x, r.v4 = some x ∧ a = Addr.v4 x) ∨ a = Addr.v6 (v6For st r) := by
  unfold recAddrs
  cases hv : r.v4 <;> simp [hv]

/-- What one successful IPForDomain call does: the ULA prefix is unchanged,
records of every other key are unchanged, and the call returns exactly the
addresses of the record now stored for its key. -/
theorem ipForDomain_spec {st : IPPoolState} {peer : Nat} {domain : String}
    {as : List Addr} {st' : IPPoolState}
    (h : ipForDomain st peer domain = some (as, st')) :
    st'.v6ULA = st.v6ULA ∧
    (∀ k, k ≠ (peer, normalizeDomain domain) →
      lookupRec st'.recs k = lookupRec st.recs k) ∧
    ∃ r, lookupRec st'.recs (peer, normalizeDomain domain) = some r ∧
      as = recAddrs st' r := by
  cases hl : lookupRec st.recs (peer, normalizeDomain domain) with
  | some r =>
    simp only [ipForDomain, hl, Option.some.injEq, Prod.mk.injEq] at h
    obtain ⟨ha, hst⟩ := h
    subst hst
    exact ⟨rfl, fun k _ => rfl, r, hl, ha.symm⟩
  | none =>
    cases hp : st.ipset with
    | nil => simp [ipForDomain, hl, hp] at h
    | cons a rest =>
      simp only [ipForDomain, hl, hp, Option.some.injEq, Prod.mk.injEq] at h
      obtain ⟨ha, hst⟩ := h
      subst hst
      refine ⟨rfl, fun k hk => ?_, _, ?_, ha.symm⟩
      · simp only [lookupRec, if_neg (Ne.symm hk)]
      · simp [lookupRec]

/-- A successful IPForDomain call preserves the pool invariant. -/
theorem ipForDomain_wf {st : IPPoolState} {peer : Nat} {domain : String}
    {as : List Addr} {st' : IPPoolState} (hWF : PoolWF st)
    (h : ipForDomain st peer domain = some (as, st')) : PoolWF st' := by
  cases hl : lookupRec st.recs (peer, normalizeDomain domain) with
  | some r =>
    simp only [ipForDomain, hl, Option.some.injEq, Prod.mk.injEq] at h
    obtain ⟨-, hst⟩ := h
    subst hst
    exact hWF
  | none =>
    cases hp : st.ipset with
    | nil => simp [ipForDomain, hl, hp] at h
    | cons a rest =>
      simp only [ipForDomain, hl, hp, Option.some.injEq, Prod.mk.injEq] at h
      obtain ⟨-, hst⟩ := h
      subst hst
      have hnodup : a ∉ rest ∧ rest.Nodup := by
        have := hWF.nodup_free
        rw [hp] at this
        exact List.nodup_cons.mp this
      constructor
      · exact hnodup.2
      · intro k r' b hmem hv4
        rcases List.mem_cons.mp hmem with heq | hold
        · rw [Prod.mk.injEq] at heq
          obtain ⟨-, hr⟩ := heq
          subst hr
          simp only [Option.some.injEq] at hv4
          subst hv4
          exact hnodup.1
        · have hb := hWF.v4_not_free k r' b hold hv4
          rw [hp] at hb
          exact fun hb' => hb (List.mem_cons_of_mem _ hb')
      · intro k₁ r₁ k₂ r₂ h₁ h₂ hne b hv₁
        rcases List.mem_cons.mp h₁ with he₁ | ho₁ <;>
          rcases List.mem_cons.mp h₂ with he₂ | ho₂
        · rw [Prod.mk.injEq] at he₁ he₂
          exact absurd (he₁.1.trans he₂.1.symm) hne
        · rw [Prod.mk.injEq] at he₁
          obtain ⟨-, hr₁⟩ := he₁
          subst hr₁
          simp only [Option.some.injEq] at hv₁
          subst hv₁
          intro hv₂
          have := hWF.v4_not_free k₂ r₂ a ho₂ hv₂
          rw [hp] at this
          exact this (List.mem_cons_self _ _)
        · rw [Prod.mk.injEq] at he₂
          obtain ⟨-, hr₂⟩ := he₂
          subst hr₂
          intro hv₂
          simp only [Option.some.injEq] at hv₂
          have := hWF.v4_not_free k₁ r₁ b ho₁ hv₁
          rw [hp, hv₂] at this
          exact this (List.mem_cons_self _ _)
        · exact hWF.v4_distinct k₁ r₁ k₂ r₂ ho₁ ho₂ hne b hv₁
      · intro k r' hmem
        rcases List.mem_cons.mp hmem with heq | hold
        · rw [Prod.mk.injEq] at heq
          obtain ⟨hk, hr⟩ := heq
          subst hr
          rw [hk]
          simp only [getCounter_set_self]
          omega
        · by_cases hq : k.1 = peer
          · rw [hq, getCounter_set_self]
            have := hWF.disc_lt k r' hold
            rw [hq] at this
            omega
          · rw [getCounter_set_other _ _ _ _ hq]
            exact hWF.disc_lt k r' hold
      · intro k₁ r₁ k₂ r₂ h₁ h₂ hne hpe
        rcases List.mem_cons.mp h₁ with he₁ | ho₁ <;>
          rcases List.mem_cons.mp h₂ with he₂ | ho₂
        · rw [Prod.mk.injEq] at he₁ he₂
          exact absurd (he₁.1.trans he₂.1.symm) hne
        · rw [Prod.mk.injEq] at he₁
          obtain ⟨hk₁, hr₁⟩ := he₁
          subst hr₁
          have hk₂ : k₂.1 = peer := by rw [← hpe, hk₁]
          have := hWF.disc_lt k₂ r₂ ho₂
          rw [hk₂] at this
          simp only
          omega
        · rw [Prod.mk.injEq] at he₂
          obtain ⟨hk₂, hr₂⟩ := he₂
          subst hr₂
          have hk₁ : k₁.1 = peer := by rw [hpe, hk₂]
          have := hWF.disc_lt k₁ r₁ ho₁
          rw [hk₁] at this
          simp only
          omega
        · exact hWF.disc_distinct k₁ r₁ k₂ r₂ ho₁ ho₂ hne hpe

/-- Under the pool invariant, records stored for two distinct keys of one
peer share no address. -/
theorem recAddrs_disjoint {st : IPPoolState} (hWF : PoolWF st)
    {k₁ k₂ : Nat × String} {r₁ r₂ : DomainRecord}
    (h₁ : lookupRec st.recs k₁ = some r₁) (h₂ : lookupRec st.recs k₂ = some r₂)
    (hne : k₁ ≠ k₂) (hpe : k₁.1 = k₂.1) :
    ∀ a, a ∈ recAddrs st r₁ → a ∉ recAddrs st r₂ := by
  have m₁ := lookupRec_mem h₁
  have m₂ := lookupRec_mem h₂
  intro a ha₁ ha₂
  rw [mem_recAddrs] at ha₁ ha₂
  rcases ha₁ with ⟨x, hx, hax⟩ | hax <;> rcases ha₂ with ⟨y, hy, hay⟩ | hay
  · subst hax
    have hxy : x = y := by
      simp only [Addr.v4.injEq] at hay
      exact hay
    subst hxy
    exact hWF.v4_distinct k₁ r₁ k₂ r₂ m₁ m₂ hne x hx hy
  · rw [hax] at hay
    exact absurd hay (by simp)
  · rw [hax] at hay
    exact absurd hay (by simp)
  · rw [hax] at hay
    have hd : r₁.disc = r₂.disc := by
      have := (Addr.v6.injEq _ _).mp hay
      unfold v6For at this
      omega
    exact hWF.disc_distinct k₁ r₁ k₂ r₂ m₁ m₂ hne hpe hd

/-- A pool state with no records and no counters satisfies the invariant
as soon as its free list has no duplicates. -/
theorem poolWF_empty (v : V6Net) (l : List Nat) (h : l.Nodup) :
    PoolWF { v6ULA := v, ipset := l, recs := [], counters := [] } := by
  refine ⟨h, ?_, ?_, ?_, ?_⟩
  · intro k r a hmem
    exact absurd hmem (List.not_mem_nil _)
  · intro k₁ r₁ k₂ r₂ hmem
    exact absurd hmem (List.not_mem_nil _)
  · intro k r hmem
    exact absurd hmem (List.not_mem_nil _)
  · intro k₁ r₁ k₂ r₂ hmem
    exact absurd hmem (List.not_mem_nil _)

/-- Claim C3: IPForDomain is idempotent — after a successful call for a
(peer, domain) pair, calling again with the identical pair returns the
identical address set (and leaves the state unchanged): repeated lookups
of an existing allocation record return its addresses unchanged. -/
theorem ipForDomain_idempotent {st : IPPoolState} {peer : Nat} {domain : String}
    {as : List Addr} {st' : IPPoolState}
    (h : ipForDomain st peer domain = some (as, st')) :
    ipForDomain st' peer domain = some (as, st') := by
  obtain ⟨-, -, r, hl, ha⟩ := ipForDomain_spec h
  simp only [ipForDomain, hl]
  rw [ha]

/-- Witness for claim C3: allocating "a." for peer 123 in the fresh sample
pool and looking the same key up again returns the same addresses and the
same state. -/
theorem ipForDomain_idempotent_witness :
    ipForDomain sampleStA 123 "a." = some (sampleAsA, sampleStA) :=
  ipForDomain_idempotent
    (by decide : ipForDomain samplePool 123 "a." = some (sampleAsA, sampleStA))

/-- Claim C4: for a fixed peer, IPForDomain never returns the same IPv4
address or the same IPv6 address for two distinct domain keys while pool
capacity remains: starting from a well-formed pool, two successive
successful calls for the same peer with distinct normalized domains
return address sets sharing no address at all. -/
theorem ipForDomain_distinct_domains {st : IPPoolState} {peer : Nat}
    {d₁ d₂ : String} {as₁ as₂ : List Addr} {st₁ st₂ : IPPoolState}
    (hWF : PoolWF st)
    (hnd : normalizeDomain d₁ ≠ normalizeDomain d₂)
    (h₁ : ipForDomain st peer d₁ = some (as₁, st₁))
    (h₂ : ipForDomain st₁ peer d₂ = some (as₂, st₂)) :
    ∀ a, a ∈ as₁ → a ∉ as₂ := by
  obtain ⟨hu₁, hf₁, r₁, hl₁, ha₁⟩ := ipForDomain_spec h₁
  have hWF₁ := ipForDomain_wf hWF h₁
  obtain ⟨hu₂, hf₂, r₂, hl₂, ha₂⟩ := ipForDomain_spec h₂
  have hWF₂ := ipForDomain_wf hWF₁ h₂
  have hk : ((peer, normalizeDomain d₁) : Nat × String) ≠ (peer, normalizeDomain d₂) := by
    intro hcontra
    rw [Prod.mk.injEq] at hcontra
    exact hnd hcontra.2
  have hl₁' : lookupRec st₂.recs (peer, normalizeDomain d₁) = some r₁ := by
    rw [hf₂ _ hk]
    exact hl₁
  have hre : recAddrs st₁ r₁ = recAddrs st₂ r₁ := by
    unfold recAddrs v6For
    rw [hu₂]
  subst ha₁ ha₂
  rw [hre]
  exact recAddrs_disjoint hWF₂ hl₁' hl₂ hk rfl

/-- Witness for claim C4: from the fresh sample pool, peer 123 gets the
IPv4 address 100 for "a.", and that address is not among the addresses a
subsequent call assigns to "b.". -/
theorem ipForDomain_distinct_domains_witness :
    Addr.v4 100 ∈ sampleAsA ∧ Addr.v4 100 ∉ sampleAsB :=
  ⟨by decide,
   ipForDomain_distinct_domains
     (poolWF_empty (ula 1) [100, 101, 102] (by decide))
     (by decide)
     (by decide : ipForDomain samplePool 123 "a." = some (sampleAsA, sampleStA))
     (by decide : ipForDomain sampleStA 123 "b." = some (sampleAsB, sampleStB))
     (Addr.v4 100) (by decide)⟩

/-- Counterexample to claim C1 as stated: a datagram that parses as a DNS
message with an empty question section does not always go unanswered — for
the sample connector, whose whois attributes source 100 to peer 123, the
zero-question query with transaction ID 1234 produces a response datagram.
This is the behavior the claim's own cited test requires: TestDNSResponse
(empty_request, src/cmd/natc/natc_test.go) fails unless exactly one
response is written for the zero-question datagram. -/
theorem handleDNS_empty_answers_counterexample :
    (handleDNS sampleC (some emptyQueryMsg) 100).1 ≠ none := by decide

/-- Claim C1 (amended): for every inbound datagram that parses as a DNS
message with an empty question section and whose sender is attributed to a
peer, handleDNS sends exactly one response datagram, echoing the
transaction ID, with the response flag set and zero answers (an
unattributed sender still receives nothing, per C6). -/
theorem handleDNS_empty_questions {c : Connector} {msg : DNSMessage}
    {src peer : Nat}
    (hwho : c.whois src = some peer) (hq : msg.questions = []) :
    handleDNS c (some msg) src =
      (some { id := msg.id, response := true, rcode := rcodeSuccess,
              questions := msg.questions, answers := [] }, c.ipPool) := by
  simp [handleDNS, generateDNSResponse, hwho, hq]

/-- Witness for claim C1 (amended): the sample connector answers the
zero-question query from attributed source 100 with a header-only
response. -/
theorem handleDNS_empty_questions_witness :
    handleDNS sampleC (some emptyQueryMsg) 100 =
      (some { id := 1234, response := true, rcode := rcodeSuccess,
              questions := [], answers := [] }, samplePool) :=
  @handleDNS_empty_questions sampleC emptyQueryMsg 100 123 (by decide) (by decide)

/-- Claim C6: handleDNS never serves an answer to an unidentified peer —
whenever the WhoIs lookup keyed by the datagram's source transport address
fails, no response datagram is sent, whatever the datagram held. -/
theorem handleDNS_unattributed (c : Connector) (query : Option DNSMessage)
    (src : Nat) (h : c.whois src = none) :
    handleDNS c query src = (none, c.ipPool) := by
  simp [handleDNS, h]

/-- Witness for claim C6: source 999 is unknown to the sample connector's
whois, so its well-formed A query gets no response. -/
theorem handleDNS_unattributed_witness :
    handleDNS sampleC (some msgA) 999 = (none, samplePool) :=
  handleDNS_unattributed sampleC (some msgA) 999 (by decide)

/-- Claim C2: an inbound datagram from an attributed peer with one A-type
question for a domain the resolver maps to one IPv4 and one IPv6 address
yields exactly one response datagram with the response flag set, the
query's transaction ID, and exactly one answer of type A whose address is
the IPv4 address IPForDomain assigned to (peer, domain). -/
theorem handleDNS_a_answer (c : Connector) (msg : DNSMessage) (src peer : Nat)
    (q : DNSQuestion) (rx ry : Nat) (as : List Addr) (st' : IPPoolState)
    (a4 : Nat)
    (hwho : c.whois src = some peer)
    (hq : msg.questions = [q])
    (ht : q.qtype = typeA)
    (hres : c.resolver q.name = ResolverResult.ok [Addr.v4 rx, Addr.v6 ry])
    (hpool : ipForDomain c.ipPool peer q.name = some (as, st'))
    (h4 : findV4 as = some a4) :
    handleDNS c (some msg) src =
      (some { id := msg.id, response := true, rcode := rcodeSuccess,
              questions := msg.questions,
              answers := [{ name := q.name, rtype := typeA, addr := Addr.v4 a4 }] },
       st') := by
  simp [handleDNS, generateDNSResponse, hwho, hq, ht, hres, hpool, h4, typeA, typeAAAA]

/-- Witness for claim C2: the sample connector answers the A query for
"a." from attributed source 100 with the pool-assigned IPv4 address 100,
transaction ID 7 echoed. -/
theorem handleDNS_a_answer_witness :
    handleDNS sampleC (some msgA) 100 =
      (some { id := 7, response := true, rcode := rcodeSuccess,
              questions := [{ name := "a.", qtype := typeA }],
              answers := [{ name := "a.", rtype := typeA, addr := Addr.v4 100 }] },
       sampleStA) :=
  handleDNS_a_answer sampleC msgA 100 123 { name := "a.", qtype := typeA } 8 9
    sampleAsA sampleStA 100 (by decide) (by decide) (by decide) (by decide)
    (by decide) (by decide)

/-- Claim C7: a question of type A or AAAA whose upstream resolver lookup
fails with an error classified as not-found is answered with exactly one
response carrying RCode NameError (NXDOMAIN) and zero answers, the
transaction ID echoed and the response flag set. -/
theorem handleDNS_nxdomain (c : Connector) (msg : DNSMessage) (src peer : Nat)
    (q : DNSQuestion) (rest : List DNSQuestion)
    (hwho : c.whois src = some peer)
    (hq : msg.questions = q :: rest)
    (ht : q.qtype = typeA ∨ q.qtype = typeAAAA)
    (hres : c.resolver q.name = ResolverResult.notFound) :
    handleDNS c (some msg) src =
      (some { id := msg.id, response := true, rcode := rcodeNameError,
              questions := msg.questions, answers := [] }, c.ipPool) := by
  rcases ht with ht | ht <;>
    simp [handleDNS, generateDNSResponse, hwho, hq, ht, hres, typeA, typeAAAA]

/-- Witness for claim C7: the A query for the nonexistent name "n." from
attributed source 100 is answered with NXDOMAIN and no answers. -/
theorem handleDNS_nxdomain_witness :
    handleDNS sampleC (some msgNX) 100 =
      (some { id := 8, response := true, rcode := rcodeNameError,
              questions := [{ name := "n.", qtype := typeA }], answers := [] },
       samplePool) :=
  handleDNS_nxdomain sampleC msgNX 100 123 { name := "n.", qtype := typeA } []
    (by decide) (by decide) (Or.inl (by decide)) (by decide)

/-- Claim C8: a question of type A or AAAA whose upstream resolver lookup
fails with an error classified as transient — a timeout, a temporary
error, or any error not classifiable as not-found or timeout — produces
no response datagram at all. -/
theorem handleDNS_transient_drop (c : Connector) (msg : DNSMessage)
    (src peer : Nat) (q : DNSQuestion) (rest : List DNSQuestion)
    (hwho : c.whois src = some peer)
    (hq : msg.questions = q :: rest)
    (ht : q.qtype = typeA ∨ q.qtype = typeAAAA)
    (hres : c.resolver q.name = ResolverResult.timeout ∨
            c.resolver q.name = ResolverResult.temporary ∨
            c.resolver q.name = ResolverResult.other) :
    handleDNS c (some msg) src = (none, c.ipPool) := by
  rcases ht with ht | ht <;> rcases hres with h | h | h <;>
    simp [handleDNS, generateDNSResponse, hwho, hq, ht, h, typeA, typeAAAA]

/-- Witness for claim C8: the A query for "t.", whose lookup fails with a
temporary error, gets no response even though source 100 is attributed. -/
theorem handleDNS_transient_drop_witness :
    handleDNS sampleC (some msgTmp) 100 = (none, samplePool) :=
  handleDNS_transient_drop sampleC msgTmp 100 123 { name := "t.", qtype := typeA }
    [] (by decide) (by decide) (Or.inl (by decide)) (Or.inr (Or.inl (by decide)))

/-- Claim C9: ignoreDestination (IsIgnored) returns true if and only if at
least one address of the given set is contained in a registered ignore
network; in particular it returns false on the empty set (and hence on any
set with no covered address, by the iff). -/
theorem ignoreDestination_iff (tbl : List IPNet) (addrs : List Addr) :
    (ignoreDestination tbl addrs = true ↔
      ∃ a ∈ addrs, ∃ p ∈ tbl, netContains p a = true) ∧
    ignoreDestination tbl [] = false := by
  refine ⟨?_, rfl⟩
  simp [ignoreDestination, List.any_eq_true]

/-- A helper for claim C10: deleting a rule just appended to a chain
succeeds, and the chain that remains is a permutation of the original
chain (the first equal rule is the one removed, so the chain is restored
exactly when the rule was not already present, and up to order of equal
entries otherwise). -/
theorem deleteRule_append (l : List (List String)) (r : List String) :
    ∃ l', deleteRule (l ++ [r]) r = some l' ∧ List.Perm l' l := by
  induction l with
  | nil => exact ⟨[], by simp [deleteRule], List.Perm.refl _⟩
  | cons a rest ih =>
    by_cases h : a = r
    · refine ⟨rest ++ [r], ?_, ?_⟩
      · simp [deleteRule, h]
      · subst h
        exact List.perm_append_singleton a rest
    · obtain ⟨l', hd, hp⟩ := ih
      refine ⟨a :: l', ?_, hp.cons a⟩
      simp [deleteRule, h, hd, List.cons_append]

/-- Claim C10: AddMagicsockPortRule and DelMagicsockPortRule derive their
rule arguments from the same buildMagicsockPortRule, so for either
network "udp4" or "udp6", a Del following an Add with the same port and
network succeeds and deletes exactly the argument list the Add appended to
filter/ts-input: both chains come back as permutations of (multisets equal
to) their original contents. -/
theorem magicsock_add_del (st : IptablesState) (port : Nat) (network : String)
    (h : network = "udp4" ∨ network = "udp6")
    (st₁ : IptablesState)
    (hadd : AddMagicsockPortRule st port network = some st₁) :
    ∃ st₂, DelMagicsockPortRule st₁ port network = some st₂ ∧
      List.Perm st₂.tsInput4 st.tsInput4 ∧ List.Perm st₂.tsInput6 st.tsInput6 := by
  rcases h with h | h <;> subst h
  · simp only [AddMagicsockPortRule, if_true, eq_self_iff_true,
      Option.some.injEq] at hadd
    subst hadd
    obtain ⟨l', hd, hp⟩ := deleteRule_append st.tsInput4 (buildMagicsockPortRule port)
    refine ⟨{ st with tsInput4 := l' }, ?_, hp, List.Perm.refl _⟩
    simp [DelMagicsockPortRule, hd]
  · have hne : ¬ (("udp6" : String) = "udp4") := by decide
    simp only [AddMagicsockPortRule, hne, if_false, if_true, eq_self_iff_true,
      Option.some.injEq] at hadd
    subst hadd
    obtain ⟨l', hd, hp⟩ := deleteRule_append st.tsInput6 (buildMagicsockPortRule port)
    refine ⟨{ st with tsInput6 := l' }, ?_, List.Perm.refl _, hp⟩
    simp [DelMagicsockPortRule, hne, hd]

/-- Witness for claim C10: adding the magicsock rule for port 7 on "udp4"
to the sample chains and then deleting it restores the chains up to
permutation (here exactly). -/
theorem magicsock_add_del_witness :
    ("udp4" = "udp4" ∨ "udp4" = "udp6") ∧
    (∃ st₂, DelMagicsockPortRule sampleIptAdded 7 "udp4" = some st₂ ∧
      List.Perm st₂.tsInput4 sampleIpt.tsInput4 ∧
      List.Perm st₂.tsInput6 sampleIpt.tsInput6) :=
  ⟨Or.inl rfl,
   magicsock_add_del sampleIpt 7 "udp4" (Or.inl rfl) sampleIptAdded (by decide)⟩
